/-
Verification of the CAPTCHA recognition-and-matching engine of the
ROC-Tender-Data-Scraper repository (src/captcha_solver.py), as a shallow
embedding in Lean 4.

Images are embedded as lists of BGR pixels (for the colour classifier,
where only pixel counts matter) or as lists of rows of pixels (for the
segmenter and the overlap-similarity function, where geometry matters).
External OpenCV library calls (cv2.cvtColor, cv2.threshold, cv2.resize)
are modelled from their documented formulas; all code of the repository
itself is translated line by line from src/captcha_solver.py.
Floating-point similarity ratios are embedded as rationals, written with
mkRat so that every definition evaluates by kernel reduction
(mkRat n d = n / d whenever d is nonzero, see mkRat_eq_div below).
-/
import Mathlib

/-- A BGR pixel: three 8-bit channels, embedded as naturals. -/
structure Pixel where
  b : ℕ
  g : ℕ
  r : ℕ
deriving DecidableEq, Repr

/-- Models the external library call cv2.cvtColor(image, cv2.COLOR_BGR2HSV)
for one 8-bit pixel, following the documented OpenCV formula:
V = max(R,G,B); S = round(255*(V-min)/V) (0 when V = 0); H = round of half
the hue angle in degrees (range 0..180), where the angle is 60*(G-B)/C when
V = R, 120 + 60*(B-R)/C when V = G, 240 + 60*(R-G)/C when V = B, plus 360
when negative.  Rounding to nearest (half up) of a fraction num/den with
den > 0 is written as the floor division fdiv (2*num + den) (2*den). -/
def hsvOf (p : Pixel) : ℤ × ℤ × ℤ :=
  let r : ℤ := p.r
  let g : ℤ := p.g
  let b : ℤ := p.b
  let v : ℤ := max r (max g b)
  let mn : ℤ := min r (min g b)
  let c : ℤ := v - mn
  let s : ℤ := if v = 0 then 0 else Int.fdiv (2 * (255 * c) + v) (2 * v)
  let hnum : ℤ :=
    if v = r then 60 * (g - b)
    else if v = g then 120 * c + 60 * (b - r)
    else 240 * c + 60 * (r - g)
  let hnum2 : ℤ := if hnum < 0 then hnum + 360 * c else hnum
  let h : ℤ := if c = 0 then 0 else Int.fdiv (hnum2 + c) (2 * c)
  (h, s, v)

/-- Models the external library call cv2.cvtColor(image, cv2.COLOR_BGR2GRAY)
for one pixel: gray = round(0.299 R + 0.587 G + 0.114 B). -/
def grayOf (p : Pixel) : ℕ := (299 * p.r + 587 * p.g + 114 * p.b + 500) / 1000

/-- cv2.inRange(hsv, [0,70,50], [10,255,255]): the first red hue band of
identify_color (src/captcha_solver.py lines 97-98, 103). -/
def redBand1 (p : Pixel) : Bool :=
  let hsv := hsvOf p
  decide (0 ≤ hsv.1 ∧ hsv.1 ≤ 10 ∧ 70 ≤ hsv.2.1 ∧ hsv.2.1 ≤ 255 ∧
    50 ≤ hsv.2.2 ∧ hsv.2.2 ≤ 255)

/-- cv2.inRange(hsv, [160,70,50], [180,255,255]): the second red hue band of
identify_color (src/captcha_solver.py lines 99-100, 104). -/
def redBand2 (p : Pixel) : Bool :=
  let hsv := hsvOf p
  decide (160 ≤ hsv.1 ∧ hsv.1 ≤ 180 ∧ 70 ≤ hsv.2.1 ∧ hsv.2.1 ≤ 255 ∧
    50 ≤ hsv.2.2 ∧ hsv.2.2 ≤ 255)

/-- A pixel is in the red mask red_mask = mask1 + mask2 iff it lies in one of
the two bands (the bands are disjoint in hue, so the uint8 sum is nonzero
exactly on their union). Line 105 of src/captcha_solver.py. -/
def redMask (p : Pixel) : Bool := redBand1 p || redBand2 p

/-- A pixel is in the content mask produced by
cv2.threshold(gray, 200, 255, cv2.THRESH_BINARY_INV): nonzero exactly when
the gray value is at most 200. Line 109 of src/captcha_solver.py. -/
def contentMask (p : Pixel) : Bool := decide (grayOf p ≤ 200)

/-- identify_color from src/captcha_solver.py (lines 89-127): counts red-mask
and content-mask pixels, computes
red_ratio = red_pixels / total_content_pixels with the division-by-zero
guard (ratio 0 when the content mask is empty), and returns "red" when
red_ratio > 0.2, else "black".  The Python function returns "unknown" only
from its except-clause, which no pure computation on the embedded image can
reach. -/
def identify_color (img : List Pixel) : String :=
  let red_pixels : ℕ := img.countP redMask
  let total_content_pixels : ℕ := img.countP contentMask
  let red_ratio : ℚ :=
    if 0 < total_content_pixels then mkRat red_pixels total_content_pixels
    else 0
  if red_ratio > mkRat 1 5 then "red" else "black"

example : identify_color [⟨255, 255, 255⟩] = "black" := by decide
example : identify_color [⟨0, 0, 255⟩] = "red" := by decide
example : identify_color [⟨30, 30, 30⟩] = "black" := by decide

/-- The maximum of a list of rationals, as computed by Python's max() on a
nonempty list (value 0 on the empty list, which the caller never passes). -/
def maxVal : List ℚ → ℚ
  | [] => 0
  | [x] => x
  | x :: y :: t => max x (maxVal (y :: t))

/-- The index of the first occurrence of the maximum of a list, mirroring
the Python idiom lst.index(max(lst)) used at lines 230-231 and 238 of
src/captcha_solver.py (0 on the empty list, which the caller never
passes). -/
def argmax1 : List ℚ → ℕ
  | [] => 0
  | [_] => 0
  | x :: y :: t => if maxVal (y :: t) ≤ x then 0 else argmax1 (y :: t) + 1

/-- The best-match selection step of solve_card_captcha
(src/captcha_solver.py lines 229-238): take the first argmax of the left
and right overlap-ratio lists; if the two indices coincide, copy the right
list, overwrite the colliding entry with -1, and take the first argmax of
the modified copy as the right index. -/
def bestMatchPair (leftRatios rightRatios : List ℚ) : ℕ × ℕ :=
  let best_left_match_idx := argmax1 leftRatios
  let best_right_match_idx := argmax1 rightRatios
  if best_left_match_idx = best_right_match_idx then
    let temp_right_ratios := rightRatios.set best_left_match_idx (-1)
    (best_left_match_idx, argmax1 temp_right_ratios)
  else
    (best_left_match_idx, best_right_match_idx)

/-- Index j is the first argmax of l among indices other than k: the
specification's "second-best for right, excluding the left pick". -/
def IsArgmaxExcl (l : List ℚ) (k j : ℕ) : Prop :=
  j < l.length ∧ j ≠ k ∧
    (∀ i, i < l.length → i ≠ k → l.getD i 0 ≤ l.getD j 0) ∧
    (∀ i, i < j → i ≠ k → l.getD i 0 < l.getD j 0)

example : bestMatchPair [mkRat 9 10, mkRat 5 10, mkRat 3 10]
    [mkRat 9 10, mkRat 8 10, mkRat 2 10] = (0, 1) := by decide
example : bestMatchPair [mkRat 1 10, mkRat 9 10] [mkRat 2 10, mkRat 7 10] =
    (1, 0) := by decide

lemma getD_le_maxVal (l : List ℚ) :
    ∀ i, i < l.length → l.getD i 0 ≤ maxVal l := by
  induction l with
  | nil => intro i hi; simp at hi
  | cons x xs ih =>
    cases xs with
    | nil =>
      intro i hi
      have hi0 : i = 0 := by
        simp only [List.length_cons, List.length_nil] at hi
        omega
      subst hi0
      simp [maxVal]
    | cons y t =>
      intro i hi
      cases i with
      | zero => simp [maxVal]
      | succ j =>
        have hj : j < (y :: t).length := by simpa using hi
        calc (x :: y :: t).getD (j + 1) 0 = (y :: t).getD j 0 := by
              simp [List.getD_cons_succ]
          _ ≤ maxVal (y :: t) := ih j hj
          _ ≤ maxVal (x :: y :: t) := by simp [maxVal]

lemma argmax1_lt_length (l : List ℚ) (hne : l ≠ []) :
    argmax1 l < l.length := by
  induction l with
  | nil => simp at hne
  | cons x xs ih =>
    cases xs with
    | nil => simp [argmax1]
    | cons y t =>
      by_cases hc : maxVal (y :: t) ≤ x
      · simp [argmax1, hc]
      · have hr := ih (by simp)
        simp only [argmax1, if_neg hc, List.length_cons] at hr ⊢
        omega

lemma getD_argmax1 (l : List ℚ) (hne : l ≠ []) :
    l.getD (argmax1 l) 0 = maxVal l := by
  induction l with
  | nil => simp at hne
  | cons x xs ih =>
    cases xs with
    | nil => simp [argmax1, maxVal]
    | cons y t =>
      by_cases hc : maxVal (y :: t) ≤ x
      · simp [argmax1, maxVal, hc, max_eq_left]
      · have hrec := ih (by simp)
        have hx : x ≤ maxVal (y :: t) := le_of_not_le hc
        simp only [argmax1, if_neg hc, maxVal, List.getD_cons_succ]
        rw [hrec, max_eq_right hx]

lemma getD_lt_of_lt_argmax1 (l : List ℚ) :
    ∀ i, i < argmax1 l → l.getD i 0 < maxVal l := by
  induction l with
  | nil => intro i hi; simp [argmax1] at hi
  | cons x xs ih =>
    cases xs with
    | nil => intro i hi; simp [argmax1] at hi
    | cons y t =>
      intro i hi
      by_cases hc : maxVal (y :: t) ≤ x
      · simp [argmax1, hc] at hi
      · have hx : x < maxVal (y :: t) := lt_of_not_le hc
        simp only [argmax1, if_neg hc] at hi
        cases i with
        | zero =>
          simpa [maxVal, max_eq_right hx.le] using hx
        | succ j =>
          have hj : j < argmax1 (y :: t) := by omega
          have := ih j hj
          simpa [maxVal, List.getD_cons_succ, max_eq_right hx.le] using this

lemma getD_set_self (l : List ℚ) (k : ℕ) (v : ℚ) (hk : k < l.length) :
    (l.set k v).getD k 0 = v := by
  rw [List.getD_eq_getElem _ _ (by simpa using hk)]
  exact List.getElem_set_self (by simpa using hk)

lemma getD_set_ne (l : List ℚ) (k i : ℕ) (v : ℚ) (hi : i < l.length)
    (hne : i ≠ k) : (l.set k v).getD i 0 = l.getD i 0 := by
  rw [List.getD_eq_getElem _ _ (by simpa using hi),
    List.getD_eq_getElem _ _ hi]
  exact List.getElem_set_ne (fun h => hne h.symm) _

/-- The overwrite-with-minus-one trick of lines 236-238 computes the first
argmax of the right-ratio list with index k excluded, provided every ratio
is nonnegative (which holds for overlap ratios) and at least two candidates
exist. -/
lemma argmaxExcl_of_set (l : List ℚ) (k : ℕ) (hk : k < l.length)
    (h2 : 2 ≤ l.length) (hnn : ∀ x ∈ l, 0 ≤ x) :
    IsArgmaxExcl l k (argmax1 (l.set k (-1))) := by
  set l' := l.set k (-1) with hl'
  have hlen : l'.length = l.length := List.length_set l k (-1)
  have hne : l' ≠ [] := by
    intro h
    rw [h] at hlen
    simp at hlen
    omega
  set j := argmax1 l' with hj
  have hjlt' : j < l'.length := argmax1_lt_length l' hne
  have hjlt : j < l.length := by omega
  have hmaxj : l'.getD j 0 = maxVal l' := getD_argmax1 l' hne
  -- some index other than k is in range, so the maximum of l' is ≥ 0
  have hex : ∃ i0, i0 < l.length ∧ i0 ≠ k := by
    by_cases h0 : k = 0
    · exact ⟨1, by omega, by omega⟩
    · exact ⟨0, by omega, fun h => h0 h.symm⟩
  obtain ⟨i0, hi0, hi0k⟩ := hex
  have hmax_nonneg : 0 ≤ maxVal l' := by
    have h1 : l'.getD i0 0 = l.getD i0 0 := getD_set_ne l k i0 (-1) hi0 hi0k
    have h2' : 0 ≤ l.getD i0 0 := by
      apply hnn
      rw [List.getD_eq_getElem _ _ hi0]
      exact List.getElem_mem hi0
    have h3 : l'.getD i0 0 ≤ maxVal l' := getD_le_maxVal l' i0 (by omega)
    linarith
  have hjk : j ≠ k := by
    intro h
    have : l'.getD j 0 = -1 := by rw [h]; exact getD_set_self l k (-1) hk
    rw [hmaxj] at this
    linarith
  have hgj : l'.getD j 0 = l.getD j 0 := getD_set_ne l k j (-1) hjlt hjk
  refine ⟨hjlt, hjk, ?_, ?_⟩
  · intro i hi hik
    have h1 : l'.getD i 0 = l.getD i 0 := getD_set_ne l k i (-1) hi hik
    have h2' : l'.getD i 0 ≤ maxVal l' := getD_le_maxVal l' i (by omega)
    rw [← h1, ← hgj, hmaxj]
    exact h2'
  · intro i hi hik
    have hil : i < l.length := by omega
    have h1 : l'.getD i 0 = l.getD i 0 := getD_set_ne l k i (-1) hil hik
    have h2' : l'.getD i 0 < maxVal l' := getD_lt_of_lt_argmax1 l' i hi
    rw [← h1, ← hgj, hmaxj]
    exact h2'

/-- Claim C1: in the overlap-similarity matcher, when the argmax-similarity
candidate index coincides for the left and right question halves, the left
slot keeps that index and the right slot is reassigned to the first argmax
among the remaining candidates (the left pick excluded).  The
nonnegativity hypothesis holds for every vector of overlap ratios, since
calculate_overlap_ratio only produces values in [0,1]. -/
theorem collision_keeps_left_reassigns_right
    (leftRatios rightRatios : List ℚ)
    (hlen : leftRatios.length = rightRatios.length)
    (h2 : 2 ≤ rightRatios.length)
    (hnn : ∀ x ∈ rightRatios, 0 ≤ x)
    (hcol : argmax1 leftRatios = argmax1 rightRatios) :
    (bestMatchPair leftRatios rightRatios).1 = argmax1 leftRatios ∧
    IsArgmaxExcl rightRatios (argmax1 leftRatios)
      (bestMatchPair leftRatios rightRatios).2 := by
  have hneL : leftRatios ≠ [] := by
    intro h
    rw [h] at hlen
    simp at hlen
    omega
  have hbl : argmax1 leftRatios < rightRatios.length := by
    have := argmax1_lt_length leftRatios hneL
    omega
  simp only [bestMatchPair]
  rw [if_pos hcol]
  exact ⟨rfl, argmaxExcl_of_set rightRatios _ hbl h2 hnn⟩

/-- Witness for C1 at the specification's own example: similarity vectors
left = [0.9, 0.5, 0.3] and right = [0.9, 0.8, 0.2] collide at index 0. -/
theorem collision_keeps_left_reassigns_right_witness :
    (bestMatchPair [mkRat 9 10, mkRat 5 10, mkRat 3 10]
        [mkRat 9 10, mkRat 8 10, mkRat 2 10]).1 =
      argmax1 [mkRat 9 10, mkRat 5 10, mkRat 3 10] ∧
    IsArgmaxExcl [mkRat 9 10, mkRat 8 10, mkRat 2 10]
      (argmax1 [mkRat 9 10, mkRat 5 10, mkRat 3 10])
      (bestMatchPair [mkRat 9 10, mkRat 5 10, mkRat 3 10]
        [mkRat 9 10, mkRat 8 10, mkRat 2 10]).2 :=
  collision_keeps_left_reassigns_right _ _ (by decide) (by decide)
    (by decide) (by decide)

/-- Claim C2: with at least two candidates, the matcher never assigns the
same candidate index to both question slots.  Nonnegativity of the right
ratios is part of input validity: overlap ratios always lie in [0,1]. -/
theorem matcher_indices_distinct (leftRatios rightRatios : List ℚ)
    (hlen : leftRatios.length = rightRatios.length)
    (h2 : 2 ≤ rightRatios.length)
    (hnn : ∀ x ∈ rightRatios, 0 ≤ x) :
    (bestMatchPair leftRatios rightRatios).1 ≠
      (bestMatchPair leftRatios rightRatios).2 := by
  by_cases hcol : argmax1 leftRatios = argmax1 rightRatios
  · have hneL : leftRatios ≠ [] := by
      intro h
      rw [h] at hlen
      simp at hlen
      omega
    have hbl : argmax1 leftRatios < rightRatios.length := by
      have := argmax1_lt_length leftRatios hneL
      omega
    have hx := argmaxExcl_of_set rightRatios (argmax1 leftRatios) hbl h2 hnn
    simp only [bestMatchPair]
    rw [if_pos hcol]
    simpa using Ne.symm hx.2.1
  · simp only [bestMatchPair]
    rw [if_neg hcol]
    simpa using hcol

/-- Witness for C2 on a collision instance with two candidates. -/
theorem matcher_indices_distinct_witness :
    (bestMatchPair [mkRat 1 10, mkRat 9 10] [mkRat 2 10, mkRat 7 10]).1 ≠
      (bestMatchPair [mkRat 1 10, mkRat 9 10] [mkRat 2 10, mkRat 7 10]).2 :=
  matcher_indices_distinct _ _ (by decide) (by decide) (by decide)

/-- Counterexample to claim C3: on an all-white 1-by-1 image the content
mask is empty, yet identify_color returns "black", not the sentinel
"unknown" — the division-by-zero guard of line 116 substitutes ratio 0 and
falls through to the "black" branch. -/
theorem allwhite_counterexample :
    List.countP contentMask [⟨255, 255, 255⟩] = 0 ∧
    identify_color [⟨255, 255, 255⟩] ≠ "unknown" := by decide

/-- Claim C3 as amended: when the content mask is empty the guarded ratio is
the sentinel 0, so identify_color classifies the image as "black"; the
sentinel "unknown" is produced only by the except-clause of the Python
function, which pure pixel arithmetic never reaches. -/
theorem empty_content_classifies_black (img : List Pixel)
    (h : img.countP contentMask = 0) : identify_color img = "black" := by
  simp only [identify_color, h, lt_irrefl, if_false]
  rw [if_neg (by decide)]

/-- Witness for the amended C3 on a concrete near-white image. -/
theorem empty_content_classifies_black_witness :
    List.countP contentMask [⟨250, 250, 250⟩, ⟨255, 255, 255⟩] = 0 ∧
    identify_color [⟨250, 250, 250⟩, ⟨255, 255, 255⟩] = "black" :=
  ⟨by decide, empty_content_classifies_black _ (by decide)⟩

lemma sat_formula_le_255 {c v : ℤ} (h0 : 0 ≤ c) (hcv : c ≤ v) :
    (if v = 0 then 0 else Int.fdiv (2 * (255 * c) + v) (2 * v)) ≤ 255 := by
  split
  · omega
  · rename_i hv
    rw [Int.fdiv_eq_ediv _ (by omega)]
    by_contra hle
    push_neg at hle
    have h2 : (256 : ℤ) ≤ (2 * (255 * c) + v) / (2 * v) := by omega
    rw [Int.le_ediv_iff_mul_le (by omega)] at h2
    have hvpos : 0 < v := by omega
    linarith

/-- The saturation channel computed by the HSV model never exceeds 255. -/
lemma hsv_s_le_255 (p : Pixel) : (hsvOf p).2.1 ≤ 255 := by
  have hmn : (0:ℤ) ≤ min (p.r:ℤ) (min (p.g:ℤ) (p.b:ℤ)) := by
    simp only [le_min_iff]
    omega
  have hmv : min (p.r:ℤ) (min (p.g:ℤ) (p.b:ℤ)) ≤
      max (p.r:ℤ) (max (p.g:ℤ) (p.b:ℤ)) :=
    le_trans (min_le_left _ _) (le_max_left _ _)
  exact sat_formula_le_255 (by omega) (by omega)

/-- The value channel computed by the HSV model is bounded by the largest
input channel, hence by 255 for 8-bit pixels. -/
lemma hsv_v_le_255 (p : Pixel) (hb : p.b ≤ 255) (hg : p.g ≤ 255)
    (hr : p.r ≤ 255) : (hsvOf p).2.2 ≤ 255 := by
  have hm : max (p.r:ℤ) (max (p.g:ℤ) (p.b:ℤ)) ≤ 255 := by
    simp only [max_le_iff]
    omega
  exact hm

/-- The red-pixel criterion exactly as the claim words it: HSV hue in
[0,10] or [160,180], saturation at least 70, value at least 50 (without the
upper saturation and value bounds of cv2.inRange, which are vacuous for
8-bit input). -/
def specRedPixel (p : Pixel) : Bool :=
  let hsv := hsvOf p
  decide ((0 ≤ hsv.1 ∧ hsv.1 ≤ 10 ∨ 160 ≤ hsv.1 ∧ hsv.1 ≤ 180) ∧
    70 ≤ hsv.2.1 ∧ 50 ≤ hsv.2.2)

/-- Modelled from the claim's words for the refutation: a strict content
criterion counting only pixels with grayscale value strictly below 200. -/
def strictContentMask (p : Pixel) : Bool := decide (grayOf p < 200)

/-- On 8-bit pixels the two inRange bands of the code coincide with the
claim's red criterion. -/
lemma redMask_eq_specRed (p : Pixel) (hb : p.b ≤ 255) (hg : p.g ≤ 255)
    (hr : p.r ≤ 255) : redMask p = specRedPixel p := by
  have hs := hsv_s_le_255 p
  have hv := hsv_v_le_255 p hb hg hr
  simp only [redMask, redBand1, redBand2, specRedPixel]
  rcases hx : hsvOf p with ⟨h, s, v⟩
  rw [hx] at hs hv
  have hs' : s ≤ 255 := hs
  have hv' : v ≤ 255 := hv
  dsimp only
  rw [Bool.eq_iff_iff]
  simp only [Bool.or_eq_true, decide_eq_true_eq]
  omega

/-- Counterexample to claim C7 as stated: with content read strictly as
"grayscale value below 200", an image of one red pixel, three black pixels
and two boundary pixels of gray value exactly 200 has strict-content red
ratio 1/4 > 0.2, yet identify_color classifies it "black" (the code's
inverted binary threshold keeps gray = 200 as content, giving ratio
1/6). -/
theorem strict_content_counterexample :
    mkRat (List.countP specRedPixel
        [⟨0, 0, 255⟩, ⟨0, 0, 0⟩, ⟨0, 0, 0⟩, ⟨0, 0, 0⟩,
          ⟨200, 200, 200⟩, ⟨200, 200, 200⟩])
      (List.countP strictContentMask
        [⟨0, 0, 255⟩, ⟨0, 0, 0⟩, ⟨0, 0, 0⟩, ⟨0, 0, 0⟩,
          ⟨200, 200, 200⟩, ⟨200, 200, 200⟩]) > mkRat 1 5 ∧
    identify_color
      [⟨0, 0, 255⟩, ⟨0, 0, 0⟩, ⟨0, 0, 0⟩, ⟨0, 0, 0⟩,
        ⟨200, 200, 200⟩, ⟨200, 200, 200⟩] = "black" := by decide

/-- Claim C7 as amended: for 8-bit images with nonempty content,
identify_color returns "red" exactly when red_ratio > 0.2 and "black"
otherwise, where red_ratio is the count of pixels in the red mask (HSV hue
in [0,10] or [160,180], saturation at least 70, value at least 50) divided
by the count of content pixels — content being pixels whose grayscale value
is at most 200 (the inverted binary threshold keeps the boundary value 200
itself). -/
theorem identify_color_red_iff_ratio (img : List Pixel)
    (hb : ∀ p ∈ img, p.b ≤ 255 ∧ p.g ≤ 255 ∧ p.r ≤ 255)
    (hc : 0 < img.countP contentMask) :
    identify_color img =
      if mkRat (img.countP specRedPixel) (img.countP contentMask) > mkRat 1 5
      then "red" else "black" := by
  have hcount : img.countP redMask = img.countP specRedPixel :=
    List.countP_congr (fun p hp => by
      rw [redMask_eq_specRed p (hb p hp).1 (hb p hp).2.1 (hb p hp).2.2])
  simp only [identify_color, if_pos hc, hcount]

/-- Witness for the amended C7 on a single pure-red pixel. -/
theorem identify_color_red_iff_ratio_witness :
    identify_color [⟨0, 0, 255⟩] =
      if mkRat (List.countP specRedPixel [⟨0, 0, 255⟩])
          (List.countP contentMask [⟨0, 0, 255⟩]) > mkRat 1 5
      then "red" else "black" :=
  identify_color_red_iff_ratio _ (by decide) (by decide)

/-- The width of an image embedded as its list of pixel rows: the length of
the first row, as in numpy's shape (0 for the empty image). -/
def imgWidth (img : List (List Pixel)) : ℕ := img.headI.length

/-- The question-image split of solve_card_captcha (src/captcha_solver.py
lines 186-189): the numpy slices question_image[0:height, 0:width//2] and
question_image[0:height, width//2:width], realized row by row as take and
drop at width // 2. -/
def splitHalves (img : List (List Pixel)) :
    List (List Pixel) × List (List Pixel) :=
  let width := imgWidth img
  (img.map (fun row => row.take (width / 2)),
   img.map (fun row => row.drop (width / 2)))

/-- Claim C6: for every non-empty rectangular image of width W and height
H, the split yields a left half of width W / 2 and a right half of width
W - W / 2, both of height H, and row by row the left and right halves
concatenate back to the source row — so the left half spans columns
[0, W/2) and the right half spans [W/2, W). -/
theorem split_halves_dimensions (img : List (List Pixel)) (W : ℕ)
    (hne : img ≠ [])
    (hrect : ∀ row ∈ img, row.length = W) :
    ((splitHalves img).1.length = img.length ∧
     (splitHalves img).2.length = img.length) ∧
    (∀ row ∈ (splitHalves img).1, row.length = W / 2) ∧
    (∀ row ∈ (splitHalves img).2, row.length = W - W / 2) ∧
    (∀ i, i < img.length →
      (splitHalves img).1.getD i [] ++ (splitHalves img).2.getD i [] =
        img.getD i []) := by
  have hW : imgWidth img = W := by
    cases img with
    | nil => simp at hne
    | cons r rest =>
      simpa [imgWidth] using hrect r (List.mem_cons_self r rest)
  refine ⟨⟨by simp [splitHalves], by simp [splitHalves]⟩, ?_, ?_, ?_⟩
  · intro row hrow
    simp only [splitHalves, List.mem_map] at hrow
    obtain ⟨r0, hr0, rfl⟩ := hrow
    simp [List.length_take, hrect r0 hr0, hW,
      Nat.min_eq_left (Nat.div_le_self _ _)]
  · intro row hrow
    simp only [splitHalves, List.mem_map] at hrow
    obtain ⟨r0, hr0, rfl⟩ := hrow
    simp [List.length_drop, hrect r0 hr0, hW]
  · intro i hi
    simp only [splitHalves]
    rw [List.getD_eq_getElem _ _ (by simpa using hi),
      List.getD_eq_getElem _ _ (by simpa using hi),
      List.getD_eq_getElem _ _ hi]
    simp only [List.getElem_map]
    exact List.take_append_drop _ _

/-- Witness for C6 on a concrete 2-by-3 image. -/
theorem split_halves_dimensions_witness :
    ((splitHalves [[⟨1, 1, 1⟩, ⟨2, 2, 2⟩, ⟨3, 3, 3⟩],
        [⟨4, 4, 4⟩, ⟨5, 5, 5⟩, ⟨6, 6, 6⟩]]).1.length = 2 ∧
     (splitHalves [[⟨1, 1, 1⟩, ⟨2, 2, 2⟩, ⟨3, 3, 3⟩],
        [⟨4, 4, 4⟩, ⟨5, 5, 5⟩, ⟨6, 6, 6⟩]]).2.length = 2) ∧
    (∀ row ∈ (splitHalves [[⟨1, 1, 1⟩, ⟨2, 2, 2⟩, ⟨3, 3, 3⟩],
        [⟨4, 4, 4⟩, ⟨5, 5, 5⟩, ⟨6, 6, 6⟩]]).1, row.length = 3 / 2) ∧
    (∀ row ∈ (splitHalves [[⟨1, 1, 1⟩, ⟨2, 2, 2⟩, ⟨3, 3, 3⟩],
        [⟨4, 4, 4⟩, ⟨5, 5, 5⟩, ⟨6, 6, 6⟩]]).2, row.length = 3 - 3 / 2) ∧
    (∀ i, i < (2 : ℕ) →
      (splitHalves [[⟨1, 1, 1⟩, ⟨2, 2, 2⟩, ⟨3, 3, 3⟩],
          [⟨4, 4, 4⟩, ⟨5, 5, 5⟩, ⟨6, 6, 6⟩]]).1.getD i [] ++
        (splitHalves [[⟨1, 1, 1⟩, ⟨2, 2, 2⟩, ⟨3, 3, 3⟩],
          [⟨4, 4, 4⟩, ⟨5, 5, 5⟩, ⟨6, 6, 6⟩]]).2.getD i [] =
        [[⟨1, 1, 1⟩, ⟨2, 2, 2⟩, ⟨3, 3, 3⟩],
          [⟨4, 4, 4⟩, ⟨5, 5, 5⟩, ⟨6, 6, 6⟩]].getD i []) := by
  have h := split_halves_dimensions
    [[⟨1, 1, 1⟩, ⟨2, 2, 2⟩, ⟨3, 3, 3⟩], [⟨4, 4, 4⟩, ⟨5, 5, 5⟩, ⟨6, 6, 6⟩]] 3
    (by simp) (by decide)
  simpa using h

/-- mkRat on naturals is ordinary rational division. -/
lemma mkRat_eq_div (n d : ℕ) : mkRat n d = (n : ℚ) / d := by
  rw [Rat.mkRat_eq_divInt, Rat.divInt_eq_div]
  push_cast
  rfl

/-- Width of a binary image embedded as rows of booleans. -/
def imgWidthB (img : List (List Bool)) : ℕ := img.headI.length

/-- Binarization at threshold 127 with
cv2.threshold(gray, 127, 255, cv2.THRESH_BINARY) (lines 137-138 of
src/captcha_solver.py): a pixel becomes true (255) when its gray value
exceeds 127, else false (0). -/
def binarize (img : List (List Pixel)) : List (List Bool) :=
  img.map (fun row => row.map (fun p => decide (127 < grayOf p)))

/-- Models the external library call cv2.resize to target width w and
height h, by nearest-index sampling of the source grid. -/
def resizeBin (img : List (List Bool)) (w h : ℕ) : List (List Bool) :=
  (List.range h).map (fun i =>
    (List.range w).map (fun j =>
      (img.getD (i * img.length / h) []).getD (j * imgWidthB img / w) false))

/-- The nonzero count of cv2.bitwise_xor over the h-by-w grid: the number
of positions where the two binary images differ (lines 149-152 of
src/captcha_solver.py). -/
def countDiff (a b : List (List Bool)) (h w : ℕ) : ℕ :=
  ((List.range h).map (fun i =>
    (List.range w).countP (fun j =>
      (a.getD i []).getD j false != (b.getD i []).getD j false))).sum

/-- calculate_overlap_ratio from src/captcha_solver.py (lines 129-162):
grayscale and binarize both images, resize the SECOND image to the first
image's dimensions when the shapes differ, count the differing pixels of
the xor, and return 1 - differing / total over the first image's grid.
When the first image is empty the Python division raises and the
except-clause returns 0.0, mirrored by the total_pixels = 0 guard. -/
def calculate_overlap_ratio (image1 image2 : List (List Pixel)) : ℚ :=
  let thresh1 := binarize image1
  let thresh2 := binarize image2
  let h1 := image1.length
  let w1 := imgWidth image1
  let h2 := image2.length
  let w2 := imgWidth image2
  let thresh2b := if h1 ≠ h2 ∨ w1 ≠ w2 then resizeBin thresh2 w1 h1 else thresh2
  let non_zero_pixels := countDiff thresh1 thresh2b h1 w1
  let total_pixels := h1 * w1
  if total_pixels = 0 then 0 else 1 - mkRat non_zero_pixels total_pixels

lemma countDiff_le (a b : List (List Bool)) (h w : ℕ) :
    countDiff a b h w ≤ h * w := by
  unfold countDiff
  calc ((List.range h).map (fun i =>
      (List.range w).countP (fun j =>
        (a.getD i []).getD j false != (b.getD i []).getD j false))).sum
      ≤ ((List.range h).map (fun _ => w)).sum := by
        apply List.sum_le_sum
        intro i hi
        have hcp := List.countP_le_length
          (p := fun j =>
            (a.getD i []).getD j false != (b.getD i []).getD j false)
          (l := List.range w)
        simpa using hcp
    _ = h * w := by
        simp [List.map_const', List.sum_replicate, smul_eq_mul]


/-- Claim C8: the similarity value always lies in [0,1], and when the two
images have different shapes it equals 1 minus the fraction of differing
pixels between the binarized first image and the binarized SECOND image
resized to the first image's dimensions — the second argument, not the
first, is the one resized, and the comparison grid is the first image's. -/
theorem overlap_ratio_range_and_resizes_second
    (image1 image2 : List (List Pixel)) :
    (0 ≤ calculate_overlap_ratio image1 image2 ∧
      calculate_overlap_ratio image1 image2 ≤ 1) ∧
    (0 < image1.length * imgWidth image1 →
      (image1.length ≠ image2.length ∨ imgWidth image1 ≠ imgWidth image2) →
      calculate_overlap_ratio image1 image2 =
        1 - (countDiff (binarize image1)
            (resizeBin (binarize image2) (imgWidth image1) image1.length)
            image1.length (imgWidth image1) : ℚ) /
          (image1.length * imgWidth image1 : ℕ)) := by
  constructor
  · simp only [calculate_overlap_ratio]
    split
    · norm_num
    · rename_i htot
      have hle := countDiff_le (binarize image1)
        (if image1.length ≠ image2.length ∨ imgWidth image1 ≠ imgWidth image2
          then resizeBin (binarize image2) (imgWidth image1) image1.length
          else binarize image2)
        image1.length (imgWidth image1)
      rw [mkRat_eq_div]
      have hpos : (0 : ℚ) < (image1.length * imgWidth image1 : ℕ) := by
        exact_mod_cast Nat.pos_of_ne_zero htot
      have hcast : ((countDiff (binarize image1)
          (if image1.length ≠ image2.length ∨
              imgWidth image1 ≠ imgWidth image2
            then resizeBin (binarize image2) (imgWidth image1) image1.length
            else binarize image2)
          image1.length (imgWidth image1) : ℕ) : ℚ) ≤
          ((image1.length * imgWidth image1 : ℕ) : ℚ) := by
        exact_mod_cast hle
      constructor
      · rw [sub_nonneg]
        rw [div_le_one hpos]
        push_cast at hcast ⊢
        exact hcast
      · have hnn : (0 : ℚ) ≤ (countDiff (binarize image1)
            (if image1.length ≠ image2.length ∨
                imgWidth image1 ≠ imgWidth image2
              then resizeBin (binarize image2) (imgWidth image1) image1.length
              else binarize image2)
            image1.length (imgWidth image1) : ℕ) := by positivity
        have hq : (0 : ℚ) ≤ (countDiff (binarize image1)
            (if image1.length ≠ image2.length ∨
                imgWidth image1 ≠ imgWidth image2
              then resizeBin (binarize image2) (imgWidth image1) image1.length
              else binarize image2)
            image1.length (imgWidth image1) : ℕ) /
            ((image1.length * imgWidth image1 : ℕ) : ℚ) :=
          div_nonneg hnn hpos.le
        push_cast at hq ⊢
        linarith
  · intro hpos hne
    simp only [calculate_overlap_ratio, if_pos hne,
      if_neg (Nat.pos_iff_ne_zero.mp hpos)]
    rw [mkRat_eq_div]

/-- Witness for C8 on a 1-by-2 question half and a 1-by-1 candidate of
different shape. -/
theorem overlap_ratio_range_and_resizes_second_witness :
    (0 ≤ calculate_overlap_ratio
        ([[⟨0, 0, 0⟩, ⟨255, 255, 255⟩]] : List (List Pixel))
        ([[⟨255, 255, 255⟩]] : List (List Pixel)) ∧
      calculate_overlap_ratio
        ([[⟨0, 0, 0⟩, ⟨255, 255, 255⟩]] : List (List Pixel))
        ([[⟨255, 255, 255⟩]] : List (List Pixel)) ≤ 1) ∧
    calculate_overlap_ratio
        ([[⟨0, 0, 0⟩, ⟨255, 255, 255⟩]] : List (List Pixel))
        ([[⟨255, 255, 255⟩]] : List (List Pixel)) =
      1 - (countDiff
          (binarize ([[⟨0, 0, 0⟩, ⟨255, 255, 255⟩]] : List (List Pixel)))
          (resizeBin
            (binarize ([[⟨255, 255, 255⟩]] : List (List Pixel)))
            (imgWidth ([[⟨0, 0, 0⟩, ⟨255, 255, 255⟩]] : List (List Pixel)))
            ([[⟨0, 0, 0⟩, ⟨255, 255, 255⟩]] : List (List Pixel)).length)
          ([[⟨0, 0, 0⟩, ⟨255, 255, 255⟩]] : List (List Pixel)).length
          (imgWidth ([[⟨0, 0, 0⟩, ⟨255, 255, 255⟩]] : List (List Pixel)))
          : ℚ) /
        (([[⟨0, 0, 0⟩, ⟨255, 255, 255⟩]] : List (List Pixel)).length *
          imgWidth ([[⟨0, 0, 0⟩, ⟨255, 255, 255⟩]] : List (List Pixel))
          : ℕ) :=
  ⟨(overlap_ratio_range_and_resizes_second _ _).1,
    (overlap_ratio_range_and_resizes_second _ _).2 (by decide) (by decide)⟩

/-- The observable outcome of one CAPTCHA attempt, as solve_card_captcha
distinguishes them: an alert within the bounded 3-second post-submit wait
(line 256), no alert at all (TimeoutException, lines 270-273), an
UnexpectedAlertPresentException during the confirm click (line 274), an
alert that cannot even be switched to (lines 291-293), and any other
exception reaching the outer except-clause (lines 295-308). -/
inductive AttemptOutcome where
  | alertAfterSubmit
  | noAlert
  | alertDuringClick
  | alertBroken
  | raiseErr (msg : String)
deriving DecidableEq, Repr

/-- The result of solve_card_captcha, enriched with the number of attempts
performed and the messages appended to the durable error log
debug_captcha_errors.log. -/
structure SolveResult where
  success : Bool
  attemptsUsed : ℕ
  errorLog : List String
deriving DecidableEq, Repr

/-- solve_card_captcha from src/captcha_solver.py (lines 164-310), run
against an abstract environment mapping each attempt number to its outcome.
On an alert (either kind) with attempts left it sleeps briefly and recurses
with attempt + 1; at the attempt bound it returns False.  On no alert it
returns True.  On an unhandleable alert it returns False immediately.  On
any other exception it appends the message to the error log and retries the
same way; the time.sleep pauses are not modelled. -/
def solve_card_captcha (env : ℕ → AttemptOutcome)
    (attempt max_attempts : ℕ) : SolveResult :=
  match env attempt with
  | .noAlert => ⟨true, 1, []⟩
  | .alertBroken => ⟨false, 1, []⟩
  | .alertAfterSubmit =>
    if h : attempt < max_attempts then
      let r := solve_card_captcha env (attempt + 1) max_attempts
      ⟨r.success, r.attemptsUsed + 1, r.errorLog⟩
    else ⟨false, 1, []⟩
  | .alertDuringClick =>
    if h : attempt < max_attempts then
      let r := solve_card_captcha env (attempt + 1) max_attempts
      ⟨r.success, r.attemptsUsed + 1, r.errorLog⟩
    else ⟨false, 1, []⟩
  | .raiseErr msg =>
    if h : attempt < max_attempts then
      let r := solve_card_captcha env (attempt + 1) max_attempts
      ⟨r.success, r.attemptsUsed + 1, msg :: r.errorLog⟩
    else ⟨false, 1, [msg]⟩
termination_by max_attempts - attempt
decreasing_by all_goals omega

/-- solve_card_captcha at its Python default arguments attempt = 1 and
max_attempts = 10, as handle_captcha invokes it (line 326). -/
def solve_card_captcha_default (env : ℕ → AttemptOutcome) : SolveResult :=
  solve_card_captcha env 1 10

lemma solve_eq_noAlert (env : ℕ → AttemptOutcome) (a m : ℕ)
    (h : env a = .noAlert) :
    solve_card_captcha env a m = ⟨true, 1, []⟩ := by
  rw [solve_card_captcha.eq_def, h]

lemma solve_eq_submitAlert_retry (env : ℕ → AttemptOutcome) (a m : ℕ)
    (h : env a = .alertAfterSubmit) (hlt : a < m) :
    solve_card_captcha env a m =
      ⟨(solve_card_captcha env (a + 1) m).success,
       (solve_card_captcha env (a + 1) m).attemptsUsed + 1,
       (solve_card_captcha env (a + 1) m).errorLog⟩ := by
  rw [solve_card_captcha.eq_def, h]
  simp [dif_pos hlt]

lemma solve_eq_submitAlert_exhaust (env : ℕ → AttemptOutcome) (a m : ℕ)
    (h : env a = .alertAfterSubmit) (hge : ¬ a < m) :
    solve_card_captcha env a m = ⟨false, 1, []⟩ := by
  rw [solve_card_captcha.eq_def, h]
  simp [dif_neg hge]

lemma solve_eq_raise_retry (env : ℕ → AttemptOutcome) (a m : ℕ)
    (msg : String) (h : env a = .raiseErr msg) (hlt : a < m) :
    solve_card_captcha env a m =
      ⟨(solve_card_captcha env (a + 1) m).success,
       (solve_card_captcha env (a + 1) m).attemptsUsed + 1,
       msg :: (solve_card_captcha env (a + 1) m).errorLog⟩ := by
  rw [solve_card_captcha.eq_def, h]
  simp [dif_pos hlt]

lemma solve_eq_raise_exhaust (env : ℕ → AttemptOutcome) (a m : ℕ)
    (msg : String) (h : env a = .raiseErr msg) (hge : ¬ a < m) :
    solve_card_captcha env a m = ⟨false, 1, [msg]⟩ := by
  rw [solve_card_captcha.eq_def, h]
  simp [dif_neg hge]

/-- The retry loop performs at most max_attempts - attempt + 1 attempts,
whatever the environment does. -/
lemma solve_attemptsUsed_le (env : ℕ → AttemptOutcome) :
    ∀ k a m, m - a ≤ k →
      (solve_card_captcha env a m).attemptsUsed ≤ m - a + 1 := by
  intro k
  induction k with
  | zero =>
    intro a m hk
    have hnlt : ¬ a < m := by omega
    rw [solve_card_captcha.eq_def]
    cases henv : env a <;> simp [dif_neg hnlt]
  | succ n ih =>
    intro a m hk
    rw [solve_card_captcha.eq_def]
    cases henv : env a with
    | noAlert => simp
    | alertBroken => simp
    | alertAfterSubmit =>
      by_cases hlt : a < m
      · have hrec := ih (a + 1) m (by omega)
        simp only [dif_pos hlt]
        omega
      · simp [dif_neg hlt]
    | alertDuringClick =>
      by_cases hlt : a < m
      · have hrec := ih (a + 1) m (by omega)
        simp only [dif_pos hlt]
        omega
      · simp [dif_neg hlt]
    | raiseErr msg =>
      by_cases hlt : a < m
      · have hrec := ih (a + 1) m (by omega)
        simp only [dif_pos hlt]
        omega
      · simp [dif_neg hlt]

/-- Claim C4: against an environment producing a rejection alert after
every submission, solve with max_attempts = 3 performs exactly 3 attempts
and returns false; in general the loop performs at most max_attempts
attempts for any environment when max_attempts ≥ 1, and the Python default
maximum is 10. -/
theorem retry_bound_three_and_default (env : ℕ → AttemptOutcome)
    (halert : ∀ n, env n = .alertAfterSubmit) :
    solve_card_captcha env 1 3 = ⟨false, 3, []⟩ ∧
    (∀ env2 : ℕ → AttemptOutcome, ∀ m, 1 ≤ m →
      (solve_card_captcha env2 1 m).attemptsUsed ≤ m) ∧
    (∀ env2 : ℕ → AttemptOutcome,
      (solve_card_captcha_default env2).attemptsUsed ≤ 10) := by
  refine ⟨?_, ?_, ?_⟩
  · have h3 : solve_card_captcha env 3 3 = ⟨false, 1, []⟩ :=
      solve_eq_submitAlert_exhaust env 3 3 (halert 3) (by omega)
    have h2 : solve_card_captcha env 2 3 = ⟨false, 2, []⟩ := by
      rw [solve_eq_submitAlert_retry env 2 3 (halert 2) (by omega), h3]
    rw [solve_eq_submitAlert_retry env 1 3 (halert 1) (by omega), h2]
  · intro env2 m hm
    have := solve_attemptsUsed_le env2 m 1 m (by omega)
    omega
  · intro env2
    have := solve_attemptsUsed_le env2 10 1 10 (by omega)
    simpa [solve_card_captcha_default] using this

/-- Witness for C4 at the constant always-alert environment. -/
theorem retry_bound_three_and_default_witness :
    solve_card_captcha (fun _ => .alertAfterSubmit) 1 3 = ⟨false, 3, []⟩ ∧
    (∀ env2 : ℕ → AttemptOutcome, ∀ m, 1 ≤ m →
      (solve_card_captcha env2 1 m).attemptsUsed ≤ m) ∧
    (∀ env2 : ℕ → AttemptOutcome,
      (solve_card_captcha_default env2).attemptsUsed ≤ 10) :=
  retry_bound_three_and_default (fun _ => .alertAfterSubmit) (fun _ => rfl)

/-- Claim C5: when the first submission produces no modal alert within the
bounded wait, solve succeeds after exactly one attempt, for every
max_attempts ≥ 1. -/
theorem success_after_one_attempt (env : ℕ → AttemptOutcome) (m : ℕ)
    (hno : env 1 = .noAlert) (hm : 1 ≤ m) :
    solve_card_captcha env 1 m = ⟨true, 1, []⟩ :=
  solve_eq_noAlert env 1 m hno

/-- Witness for C5 at the constant no-alert environment with
max_attempts = 7. -/
theorem success_after_one_attempt_witness :
    solve_card_captcha (fun _ => .noAlert) 1 7 = ⟨true, 1, []⟩ :=
  success_after_one_attempt (fun _ => .noAlert) 7 rfl (by omega)

/-- Claim C9: an exception inside an attempt is caught by the outer
except-clause, its message appended to the durable error log, and it
consumes exactly one attempt: with attempts left the loop re-enters capture
at attempt + 1 after a brief pause, otherwise solve returns false.  The
embedding is a total function into SolveResult, so solve never raises for
these expected failure modes — it reports a boolean. -/
theorem exception_consumes_one_attempt (env : ℕ → AttemptOutcome)
    (msg : String) (a m : ℕ) :
    (env a = .raiseErr msg → a < m →
      solve_card_captcha env a m =
        ⟨(solve_card_captcha env (a + 1) m).success,
         (solve_card_captcha env (a + 1) m).attemptsUsed + 1,
         msg :: (solve_card_captcha env (a + 1) m).errorLog⟩) ∧
    (env a = .raiseErr msg → m ≤ a →
      solve_card_captcha env a m = ⟨false, 1, [msg]⟩) :=
  ⟨fun h hlt => solve_eq_raise_retry env a m msg h hlt,
   fun h hge => solve_eq_raise_exhaust env a m msg h (by omega)⟩

/-- Witness for C9 at a constant raising environment, covering both the
retry branch (attempt 1 of 3) and the exhaustion branch (attempt 3 of 3). -/
theorem exception_consumes_one_attempt_witness :
    solve_card_captcha (fun _ => .raiseErr "boom") 1 3 =
      ⟨(solve_card_captcha (fun _ => .raiseErr "boom") 2 3).success,
       (solve_card_captcha (fun _ => .raiseErr "boom") 2 3).attemptsUsed + 1,
       "boom" :: (solve_card_captcha (fun _ => .raiseErr "boom") 2 3).errorLog⟩ ∧
    solve_card_captcha (fun _ => .raiseErr "boom") 3 3 = ⟨false, 1, ["boom"]⟩ :=
  ⟨(exception_consumes_one_attempt (fun _ => .raiseErr "boom") "boom" 1 3).1
      rfl (by omega),
   (exception_consumes_one_attempt (fun _ => .raiseErr "boom") "boom" 3 3).2
      rfl (by omega)⟩

/-- The result of handle_captcha, enriched with whether the solver was
invoked. -/
structure HandleResult where
  result : Bool
  solverInvoked : Bool
deriving DecidableEq, Repr

/-- handle_captcha from src/captcha_solver.py (lines 312-339): when the
challenge marker text is present in the page source it runs
solve_card_captcha with its default arguments and returns that boolean
(the debug-image cleanup and the conditional navigation back to the saved
URL do not affect the returned value); when the marker is absent it
returns True immediately without invoking the solver. -/
def handle_captcha (markerPresent : Bool)
    (env : ℕ → AttemptOutcome) : HandleResult :=
  if markerPresent then
    ⟨(solve_card_captcha_default env).success, true⟩
  else
    ⟨true, false⟩

/-- Claim C10: when the marker is absent handle_captcha returns true
without invoking the solver; the solver runs only when the marker is
present, in which case the returned boolean is the solver's; and a true
return does not distinguish "no CAPTCHA present" from "CAPTCHA solved",
as the two exhibited environments show. -/
theorem handle_captcha_marker_behavior (markerPresent : Bool)
    (env : ℕ → AttemptOutcome) :
    (markerPresent = false → handle_captcha markerPresent env = ⟨true, false⟩) ∧
    (markerPresent = true →
      (handle_captcha markerPresent env).solverInvoked = true ∧
      (handle_captcha markerPresent env).result =
        (solve_card_captcha_default env).success) ∧
    ((handle_captcha false env).result = true ∧
      (handle_captcha false env).solverInvoked = false) ∧
    (∃ e2 : ℕ → AttemptOutcome, (handle_captcha true e2).result = true ∧
      (handle_captcha true e2).solverInvoked = true) := by
  refine ⟨?_, ?_, ⟨?_, ?_⟩, ?_⟩
  · intro h
    subst h
    rfl
  · intro h
    subst h
    exact ⟨rfl, rfl⟩
  · rfl
  · rfl
  · refine ⟨fun _ => .noAlert, ?_, rfl⟩
    have hsolve : solve_card_captcha (fun _ => .noAlert) 1 10 =
        ⟨true, 1, []⟩ := solve_eq_noAlert _ 1 10 rfl
    simp [handle_captcha, solve_card_captcha_default, hsolve]

/-- Witness for C10 at both marker values against an always-rejecting
environment. -/
theorem handle_captcha_marker_behavior_witness :
    handle_captcha false (fun _ => .alertAfterSubmit) = ⟨true, false⟩ ∧
    ((handle_captcha true (fun _ => .alertAfterSubmit)).solverInvoked = true ∧
      (handle_captcha true (fun _ => .alertAfterSubmit)).result =
        (solve_card_captcha_default (fun _ => .alertAfterSubmit)).success) :=
  ⟨(handle_captcha_marker_behavior false (fun _ => .alertAfterSubmit)).1 rfl,
   (handle_captcha_marker_behavior true (fun _ => .alertAfterSubmit)).2.1 rfl⟩
